import Mathlib

/-!
Shallow embedding of the go-swarm-simulation core (repository
lao-tseu-is-alive/go-swarm-simulation) and proofs about it.

The float64 arithmetic of the Go source is modelled over the rationals.
Go string team colors ("RED"/"BLUE", the only two constants used) are
modelled by a two-element inductive type.  Go `int(x)` conversion of a
float truncates toward zero; it is modelled by `truncQ` below.

Sources embedded here:
  - pkg/geometry/vector2d.go        (Vector2D, Div, Epsilon)
  - pkg/simulation/config.go        (Config, DefaultConfig, Validate)
  - pkg/simulation/individual.go    (Individual, handleConversion,
                                     updateBouncePosition, applySoftBoundaries,
                                     applySpeedLimits, updateSoftTurnPosition)
  - the two-result ComputeBoidUpdate (boids kernel called by updateAsBlue)
  - pkg/simulation/world.go         (grid, getCellSize, getCellIndices,
                                     rebuildGrid, getNearbyActors,
                                     countFriendsInRadius, resolveCombat,
                                     scanNeighbors combat emission,
                                     buildSnapshot, UpdateConfig handling)
-/

/-- Team color; the Go code uses the two string constants ColorRed and
ColorBlue (pkg/simulation/individual.go). -/
inductive TeamColor where
  | red : TeamColor
  | blue : TeamColor
deriving DecidableEq, Repr

/-- ActorState message: the per-agent state record exchanged between the
World and the agents (Id, Color, PositionX/Y, VelocityX/Y). -/
structure ActorState where
  id : String
  color : TeamColor
  posX : ℚ
  posY : ℚ
  velX : ℚ
  velY : ℚ
deriving DecidableEq, Repr

/-- Config from pkg/simulation/config.go (log strings omitted as they do
not enter any computation). -/
structure Config where
  worldWidth : ℚ
  worldHeight : ℚ
  numRedAtStart : ℤ
  numBlueAtStart : ℤ
  detectionRadius : ℚ
  defenseRadius : ℚ
  contactRadius : ℚ
  maxSpeed : ℚ
  aggression : ℚ
  visualRange : ℚ
  protectedRange : ℚ
  centeringFactor : ℚ
  avoidFactor : ℚ
  matchingFactor : ℚ
  turnFactor : ℚ
  minSpeed : ℚ
  displayDetectionCircle : Bool
  displayDefenseCircle : Bool
deriving DecidableEq, Repr

/-- DefaultConfig from pkg/simulation/config.go. -/
def defaultConfig : Config where
  worldWidth := 1000
  worldHeight := 800
  numRedAtStart := 5
  numBlueAtStart := 30
  detectionRadius := 50
  defenseRadius := 40
  contactRadius := 12
  visualRange := 70
  protectedRange := 20
  centeringFactor := 5 / 10000
  avoidFactor := 5 / 100
  matchingFactor := 5 / 100
  turnFactor := 2 / 10
  maxSpeed := 4
  minSpeed := 2
  aggression := 8 / 10
  displayDetectionCircle := false
  displayDefenseCircle := false

/-- Config.Validate from pkg/simulation/config.go. -/
def Config.validate (c : Config) : Except String Unit :=
  if c.defenseRadius > c.detectionRadius then
    Except.error "defenseRadius cannot exceed detectionRadius"
  else if c.contactRadius > c.defenseRadius then
    Except.error "contactRadius should be <= defenseRadius"
  else if c.minSpeed >= c.maxSpeed then
    Except.error "minSpeed must be < maxSpeed"
  else
    Except.ok ()

/-- Go `int(q)` conversion of a float: truncation toward zero. -/
def truncQ (q : ℚ) : ℤ :=
  if 0 ≤ q then ⌊q⌋ else ⌈q⌉

/-- World actor state relevant to the grid and combat pipeline
(pkg/simulation/world.go WorldActor: the actors map is modelled as a
list of ActorState values; pids, channels and telemetry are omitted). -/
structure World where
  actors : List ActorState
  detectionRadius : ℚ
  visualRange : ℚ
  defenseRadius : ℚ
  cfg : Config
deriving Repr

/-- getCellSize: max of the three radii, clamped to a minimum of 10. -/
def getCellSize (w : World) : ℚ :=
  max (max (max w.detectionRadius w.defenseRadius) w.visualRange) 10

/-- Cell key of a position: `int(x / cellSize), int(y / cellSize)`
(getCellIndices / the binning in rebuildGrid). -/
def cellKey (cs : ℚ) (x y : ℚ) : ℤ × ℤ :=
  (truncQ (x / cs), truncQ (y / cs))

/-- The spatial grid, as the map from cell keys to cell buckets. -/
def Grid : Type := ℤ × ℤ → List ActorState

/-- One step of the rebuildGrid loop: `w.grid[key] = append(w.grid[key], a)`.
Go map iteration order over the actors map is unspecified, so the order
inside a bucket is not part of the source's semantics; we cons. -/
def gridInsert (k : ℤ × ℤ) (a : ActorState) (g : Grid) : Grid :=
  fun k2 => if k2 = k then a :: g k2 else g k2

/-- rebuildGrid from pkg/simulation/world.go: bin every actor into the
cell `(int(pos.x/cellSize), int(pos.y/cellSize))`. -/
def rebuildGrid (cs : ℚ) : List ActorState → Grid
  | [] => fun _ => []
  | a :: rest => gridInsert (cellKey cs a.posX a.posY) a (rebuildGrid cs rest)

/-- The grid the World holds after the rebuild at the top of a tick. -/
def worldGrid (w : World) : Grid :=
  rebuildGrid (getCellSize w) w.actors

/-- Inclusive integer range `lo, lo+1, ..., hi` (a Go `for i := lo; i <= hi; i++` loop). -/
def intRange (lo hi : ℤ) : List ℤ :=
  (List.range (hi + 1 - lo).toNat).map (fun n : ℕ => lo + (n : ℤ))

/-- distSquared from pkg/simulation/world.go. -/
def distSquared (a b : ActorState) : ℚ :=
  (a.posX - b.posX) * (a.posX - b.posX) + (a.posY - b.posY) * (a.posY - b.posY)

/-- getNearbyActors: collect the buckets of the 3x3 block of cells
around `(x, y)`. -/
def getNearbyActors (w : World) (x y : ℚ) : List ActorState :=
  let gx := truncQ (x / getCellSize w)
  let gy := truncQ (y / getCellSize w)
  (intRange (gx - 1) (gx + 1)).flatMap fun i =>
    (intRange (gy - 1) (gy + 1)).flatMap fun j =>
      worldGrid w (i, j)

/-- countFriendsInRadius from pkg/simulation/world.go: scan the block of
cells that encloses the disk, counting actors of the target color,
excluding `excludeID`, strictly within `radius`. -/
def countFriendsInRadius (w : World) (x y radius : ℚ)
    (targetColor : TeamColor) (excludeID : String) : ℕ :=
  let radiusSq := radius * radius
  let cs := getCellSize w
  let minGx := truncQ ((x - radius) / cs)
  let maxGx := truncQ ((x + radius) / cs)
  let minGy := truncQ ((y - radius) / cs)
  let maxGy := truncQ ((y + radius) / cs)
  ((intRange minGx maxGx).map fun gx =>
    ((intRange minGy maxGy).map fun gy =>
      (worldGrid w (gx, gy)).countP fun a =>
        decide (a.color = targetColor) && decide (¬ a.id = excludeID) &&
        decide ((a.posX - x) * (a.posX - x) + (a.posY - y) * (a.posY - y) < radiusSq)).sum).sum

/-- A Convert message, together with the id the World routes it to
(sendConvert sends pb.Convert{TargetColor} to pidsCache[targetID]). -/
structure ConvertMsg where
  targetId : String
  targetColor : TeamColor
deriving DecidableEq, Repr

/-- resolveCombat from pkg/simulation/world.go: count the Blue defenders
around the victim and pick who gets converted. -/
def resolveCombat (w : World) (attacker victim : ActorState) : ConvertMsg :=
  let defenders := countFriendsInRadius w victim.posX victim.posY
    w.defenseRadius TeamColor.blue victim.id
  if defenders ≥ 3 then
    ⟨attacker.id, TeamColor.blue⟩
  else
    ⟨victim.id, TeamColor.red⟩

/-- The Convert messages emitted while scanNeighbors processes agent `me`:
for every other actor in the 3x3 block, combat fires when `me` is RED,
`other` is BLUE and the pair is strictly within the contact radius. -/
def scanCombat (w : World) (me : ActorState) : List ConvertMsg :=
  (getNearbyActors w me.posX me.posY).flatMap fun other =>
    if ¬ other.id = me.id ∧ me.color = TeamColor.red ∧ other.color = TeamColor.blue ∧
        distSquared me other < w.cfg.contactRadius * w.cfg.contactRadius then
      [resolveCombat w me other]
    else
      []

/-- All Convert messages of one tick of broadcastSimulationStep. -/
def allCombatMessages (w : World) : List ConvertMsg :=
  w.actors.flatMap (scanCombat w)

/-- WorldSnapshot (Actors, RedCount, BlueCount, IsGameOver, Winner);
the Winner zero value is modelled as `none`. -/
structure WorldSnapshot where
  actors : List ActorState
  redCount : ℕ
  blueCount : ℕ
  isGameOver : Bool
  winner : Option TeamColor
deriving DecidableEq, Repr

/-- buildSnapshot from pkg/simulation/world.go: count red actors (every
non-red actor increments the blue count), and set the game-over flag and
winner only when the total population is positive. -/
def buildSnapshot (actors : List ActorState) : WorldSnapshot :=
  let red := actors.countP fun a => decide (a.color = TeamColor.red)
  let blue := actors.countP fun a => ! decide (a.color = TeamColor.red)
  if 0 < red + blue then
    if red = 0 then
      ⟨actors, red, blue, true, some TeamColor.blue⟩
    else if blue = 0 then
      ⟨actors, red, blue, true, some TeamColor.red⟩
    else
      ⟨actors, red, blue, false, none⟩
  else
    ⟨actors, red, blue, false, none⟩

/-- Effect of delivering one routed Convert message on the state an agent
subsequently reports (handleConversion in pkg/simulation/individual.go):
nothing when the agent already has the target color, otherwise the color
flips and the recoil multiplies the velocity by -1.5. -/
def applyConvert (a : ActorState) (m : ConvertMsg) : ActorState :=
  if m.targetId = a.id ∧ ¬ m.targetColor = a.color then
    { a with color := m.targetColor,
             velX := a.velX * (-(3/2)), velY := a.velY * (-(3/2)) }
  else
    a

/-- Deliver a list of Convert messages to one agent in order. -/
def applyConverts (msgs : List ConvertMsg) (a : ActorState) : ActorState :=
  msgs.foldl applyConvert a

/-- One synchronous tick of the World actors map: every agent processes
the Convert messages of this tick's scan and then its Tick physics
(modelled by an arbitrary per-agent update `f`; the agent Tick handlers
never change id or color), and the World ingests the reported states. -/
def worldTick (w : World) (f : ActorState → ActorState) : List ActorState :=
  (w.actors.map (applyConverts (allCombatMessages w))).map f

/-- The pb.UpdateConfig message (hot-tunable fields). -/
structure UpdateConfig where
  detectionRadius : ℚ
  defenseRadius : ℚ
  contactRadius : ℚ
  visualRange : ℚ
  protectedRange : ℚ
  maxSpeed : ℚ
  minSpeed : ℚ
  aggression : ℚ
  centeringFactor : ℚ
  avoidFactor : ℚ
  matchingFactor : ℚ
  turnFactor : ℚ
  displayDetectionCircle : Bool
  displayDefenseCircle : Bool
  numRedAtStart : ℤ
  numBlueAtStart : ℤ
deriving DecidableEq, Repr

/-- The UpdateConfig branch of WorldActor.Receive: every live-tunable
field is installed unconditionally; Config.validate is never consulted
on this path. -/
def handleUpdateConfig (w : World) (msg : UpdateConfig) : World :=
  { w with
    detectionRadius := msg.detectionRadius
    defenseRadius := msg.defenseRadius
    visualRange := msg.visualRange
    cfg := { w.cfg with
      detectionRadius := msg.detectionRadius
      defenseRadius := msg.defenseRadius
      contactRadius := msg.contactRadius
      visualRange := msg.visualRange
      protectedRange := msg.protectedRange
      maxSpeed := msg.maxSpeed
      minSpeed := msg.minSpeed
      aggression := msg.aggression
      centeringFactor := msg.centeringFactor
      avoidFactor := msg.avoidFactor
      matchingFactor := msg.matchingFactor
      turnFactor := msg.turnFactor
      displayDetectionCircle := msg.displayDetectionCircle
      displayDefenseCircle := msg.displayDefenseCircle
      numRedAtStart := msg.numRedAtStart
      numBlueAtStart := msg.numBlueAtStart } }

/-- The Individual agent state (pkg/simulation/individual.go). -/
structure Individual where
  id : String
  color : TeamColor
  x : ℚ
  y : ℚ
  vx : ℚ
  vy : ℚ
  visibleTargets : List ActorState
  visibleFriends : List ActorState
deriving DecidableEq, Repr

/-- handleConversion from pkg/simulation/individual.go: no-op when the
target color is already current; otherwise flip the color, multiply the
velocity by -1.5 (the recoil), and clear both perception caches. -/
def handleConversion (i : Individual) (targetColor : TeamColor) : Individual :=
  if targetColor = i.color then
    i
  else
    { i with color := targetColor,
             vx := i.vx * (-(3/2)), vy := i.vy * (-(3/2)),
             visibleTargets := [], visibleFriends := [] }

/-- updateBouncePosition from pkg/simulation/individual.go: integrate,
clamp each coordinate to the arena and negate the corresponding velocity
component on a wall hit, then replace any exactly-zero velocity
component with 0.01. -/
def updateBouncePosition (cfg : Config) (i : Individual) : Individual :=
  let x1 := i.x + i.vx
  let y1 := i.y + i.vy
  let x2 := if x1 < 0 then 0 else if x1 > cfg.worldWidth then cfg.worldWidth else x1
  let vx1 := if x1 < 0 then i.vx * (-1)
    else if x1 > cfg.worldWidth then i.vx * (-1) else i.vx
  let y2 := if y1 < 0 then 0 else if y1 > cfg.worldHeight then cfg.worldHeight else y1
  let vy1 := if y1 < 0 then i.vy * (-1)
    else if y1 > cfg.worldHeight then i.vy * (-1) else i.vy
  let vx2 := if vx1 = 0 then 1/100 else vx1
  let vy2 := if vy1 = 0 then 1/100 else vy1
  { i with x := x2, y := y2, vx := vx2, vy := vy2 }

/-- applySoftBoundaries from pkg/simulation/individual.go: inside the
100-unit margin near a wall, steer away by turnFactor. -/
def applySoftBoundaries (cfg : Config) (i : Individual) : Individual :=
  let vx1 := if i.x < 100 then i.vx + cfg.turnFactor
    else if i.x > cfg.worldWidth - 100 then i.vx - cfg.turnFactor
    else i.vx
  let vy1 := if i.y < 100 then i.vy + cfg.turnFactor
    else if i.y > cfg.worldHeight - 100 then i.vy - cfg.turnFactor
    else i.vy
  { i with vx := vx1, vy := vy1 }

/-- applySpeedLimits from pkg/simulation/individual.go.  The float
`math.Sqrt(vx*vx+vy*vy)` is not rational, so the computed speed is an
explicit argument; statements about this function carry the side
condition `0 ≤ speed` and `speed * speed = vx * vx + vy * vy`, which
pins it to the unique non-negative square root. -/
def applySpeedLimits (cfg : Config) (i : Individual) (speed : ℚ) : Individual :=
  if speed > cfg.maxSpeed then
    { i with vx := i.vx * (cfg.maxSpeed / speed), vy := i.vy * (cfg.maxSpeed / speed) }
  else if speed < cfg.minSpeed ∧ speed > 0 then
    { i with vx := i.vx * (cfg.minSpeed / speed), vy := i.vy * (cfg.minSpeed / speed) }
  else
    i

/-- updateSoftTurnPosition from pkg/simulation/individual.go: soft
boundary steer, speed clamp, then integrate.  The position itself is
never clamped on this path.  `speed` is the square root of the squared
velocity norm after the soft-boundary step (see applySpeedLimits). -/
def updateSoftTurnPosition (cfg : Config) (i : Individual) (speed : ℚ) : Individual :=
  let i1 := applySoftBoundaries cfg i
  let i2 := applySpeedLimits cfg i1 speed
  { i2 with x := i2.x + i2.vx, y := i2.y + i2.vy }

/-- Accumulators of the single pass over friends in ComputeBoidUpdate.
`neighbors` is a float counter in the Go source. -/
structure BoidAcc where
  closeDx : ℚ
  closeDy : ℚ
  xVelAvg : ℚ
  yVelAvg : ℚ
  xPosAvg : ℚ
  yPosAvg : ℚ
  neighbors : ℚ
deriving DecidableEq, Repr

/-- One iteration of the friends loop of ComputeBoidUpdate. -/
def boidScanStep (cfg : Config) (me : Individual) (acc : BoidAcc) (other : ActorState) :
    BoidAcc :=
  let dx := me.x - other.posX
  let dy := me.y - other.posY
  let distSq := dx * dx + dy * dy
  let acc1 := if distSq < cfg.protectedRange * cfg.protectedRange then
      { acc with closeDx := acc.closeDx + dx, closeDy := acc.closeDy + dy }
    else
      acc
  if distSq < cfg.visualRange * cfg.visualRange then
    { acc1 with
      xVelAvg := acc1.xVelAvg + other.velX,
      yVelAvg := acc1.yVelAvg + other.velY,
      xPosAvg := acc1.xPosAvg + other.posX,
      yPosAvg := acc1.yPosAvg + other.posY,
      neighbors := acc1.neighbors + 1 }
  else
    acc1

/-- ComputeBoidUpdate, the two-result velocity kernel called by
updateAsBlue in pkg/simulation/individual.go: separation accumulation,
then separation weight, then alignment and cohesion when any neighbor
is within visual range. -/
def ComputeBoidUpdate (me : Individual) (friends : List ActorState) (cfg : Config) :
    ℚ × ℚ :=
  let acc := friends.foldl (boidScanStep cfg me) ⟨0, 0, 0, 0, 0, 0, 0⟩
  let vx1 := me.vx + acc.closeDx * cfg.avoidFactor
  let vy1 := me.vy + acc.closeDy * cfg.avoidFactor
  if acc.neighbors > 0 then
    let xVelAvg := acc.xVelAvg / acc.neighbors
    let yVelAvg := acc.yVelAvg / acc.neighbors
    let vx2 := vx1 + (xVelAvg - vx1) * cfg.matchingFactor
    let vy2 := vy1 + (yVelAvg - vy1) * cfg.matchingFactor
    let xPosAvg := acc.xPosAvg / acc.neighbors
    let yPosAvg := acc.yPosAvg / acc.neighbors
    (vx2 + (xPosAvg - me.x) * cfg.centeringFactor,
     vy2 + (yPosAvg - me.y) * cfg.centeringFactor)
  else
    (vx1, vy1)

/-- Vector2D from pkg/geometry/vector2d.go. -/
structure Vector2D where
  x : ℚ
  y : ℚ
deriving DecidableEq, Repr

/-- A float component that may be the IEEE infinity produced by Div on a
zero scalar. -/
inductive FloatVal where
  | fin : ℚ → FloatVal
  | inf : FloatVal
deriving DecidableEq, Repr

/-- The (vector, error) pair returned by Vector2D.Div; `isErr` records
whether the error value is non-nil. -/
structure DivResult where
  x : FloatVal
  y : FloatVal
  isErr : Bool
deriving DecidableEq, Repr

/-- The pkg/geometry Epsilon constant (1e-9). -/
def Epsilon : ℚ := 1 / 1000000000

/-- Vector2D.Div from pkg/geometry/vector2d.go: only an exactly-zero
scalar is rejected (with an infinity-valued vector and an error);
every other scalar divides componentwise. -/
def Vector2D.div (v : Vector2D) (scalar : ℚ) : DivResult :=
  if scalar = 0 then
    ⟨FloatVal.inf, FloatVal.inf, true⟩
  else
    ⟨FloatVal.fin (v.x / scalar), FloatVal.fin (v.y / scalar), false⟩

/-- Concrete actor with negative coordinates (counterexample input). -/
def exActorNeg : ActorState := ⟨"A", TeamColor.red, -5, -5, 0, 0⟩

/-- Concrete world holding `exActorNeg`; all radii are at most 10, so
the cell size is exactly 10. -/
def exWorldTrunc : World := ⟨[exActorNeg], 10, 10, 10, defaultConfig⟩

/-- Concrete combat configuration: contact and defense radius 1. -/
def combatCfg : Config :=
  { defaultConfig with contactRadius := 1, defenseRadius := 1, detectionRadius := 10 }

/-- Concrete RED attacker next to the victim. -/
def attackerEx : ActorState := ⟨"R0", TeamColor.red, 101/10, 10, 0, 0⟩

/-- Concrete BLUE victim at (10, 10). -/
def victimEx : ActorState := ⟨"B0", TeamColor.blue, 10, 10, 0, 0⟩

/-- Three BLUE defenders within distance 1/10 of the victim. -/
def defendersEx : List ActorState :=
  [⟨"B1", TeamColor.blue, 10, 101/10, 0, 0⟩,
   ⟨"B2", TeamColor.blue, 99/10, 10, 0, 0⟩,
   ⟨"B3", TeamColor.blue, 10, 99/10, 0, 0⟩]

/-- Concrete world with 1 RED attacker, 1 BLUE victim and 3 defenders. -/
def exWorldCombat : World :=
  ⟨attackerEx :: victimEx :: defendersEx, 10, 10, 1, combatCfg⟩

/-- Concrete world whose population is a single RED actor (game over,
winner RED). -/
def wOneRed : World :=
  ⟨[⟨"R0", TeamColor.red, 1, 1, 0, 0⟩], 50, 70, 40, defaultConfig⟩

/-- Concrete world with an empty actors map (numRedAtStart and
numBlueAtStart zero spawn nothing). -/
def wEmptyPop : World :=
  ⟨[], 50, 70, 40, { defaultConfig with numRedAtStart := 0, numBlueAtStart := 0 }⟩

/-- Concrete world used for the UpdateConfig counterexample. -/
def wCfg : World := ⟨[], 50, 70, 40, defaultConfig⟩

/-- An UpdateConfig message that violates the speed invariant
(minSpeed 5 is not below maxSpeed 4). -/
def msgBad : UpdateConfig :=
  ⟨50, 40, 12, 70, 20, 4, 5, 8/10, 5/10000, 5/100, 5/100, 2/10, false, false, 5, 30⟩

/-- Concrete BLUE individual outside the left wall, moving further out. -/
def iBlueOut : Individual := ⟨"B0", TeamColor.blue, -50, 400, -3, 0, [], []⟩

/-- Concrete RED individual for the bounce witness. -/
def iRedW : Individual := ⟨"R0", TeamColor.red, 990, 5, 20, -9, [], []⟩

/-- Concrete BLUE individual for the flocking witness. -/
def meBoid : Individual := ⟨"B1", TeamColor.blue, 0, 0, 1, 2, [], []⟩

/-- A single friend far outside both the protected and the visual range
under defaultConfig. -/
def farFriends : List ActorState := [⟨"B2", TeamColor.blue, 1000, 0, 5, 5⟩]

/-- Concrete RED individual for the conversion round-trip witness. -/
def iConv : Individual := ⟨"R1", TeamColor.red, 5, 6, 2, -3, [], []⟩

theorem truncQ_mono {a b : ℚ} (h : a ≤ b) : truncQ a ≤ truncQ b := by
  unfold truncQ
  by_cases ha : 0 ≤ a
  · rw [if_pos ha, if_pos (le_trans ha h)]
    exact Int.floor_le_floor h
  · rw [if_neg ha]
    by_cases hb : 0 ≤ b
    · rw [if_pos hb]
      have h1 : (⌈a⌉ : ℤ) ≤ 0 := Int.ceil_le.mpr (by exact_mod_cast le_of_not_le ha)
      have h2 : (0 : ℤ) ≤ ⌊b⌋ := Int.le_floor.mpr (by exact_mod_cast hb)
      omega
    · rw [if_neg hb]
      exact Int.ceil_le_ceil h

theorem truncQ_add_one_le (a : ℚ) : truncQ (a + 1) ≤ truncQ a + 1 := by
  unfold truncQ
  by_cases ha : 0 ≤ a
  · rw [if_pos ha, if_pos (by linarith)]
    rw [show a + (1 : ℚ) = a + ((1 : ℤ) : ℚ) by norm_num, Int.floor_add_int]
  · rw [if_neg ha]
    by_cases hb : 0 ≤ a + 1
    · rw [if_pos hb]
      have h1 : (⌊a + 1⌋ : ℤ) ≤ 0 := by
        have hlt : a + 1 < 1 := by linarith [lt_of_not_le ha]
        have := Int.floor_lt.mpr (show a + 1 < ((1 : ℤ) : ℚ) by exact_mod_cast hlt)
        omega
      have h2 : (-1 : ℤ) ≤ ⌈a⌉ := by
        have : (-1 : ℚ) ≤ a := by linarith
        have := Int.ceil_le_ceil this
        simpa using this
      omega
    · rw [if_neg hb]
      rw [show a + (1 : ℚ) = a + ((1 : ℤ) : ℚ) by norm_num, Int.ceil_add_int]

theorem truncQ_sub_one_ge (a : ℚ) : truncQ a - 1 ≤ truncQ (a - 1) := by
  have h := truncQ_add_one_le (a - 1)
  simp only [sub_add_cancel] at h
  omega

theorem getCellSize_pos (w : World) : 0 < getCellSize w := by
  unfold getCellSize
  have : (10 : ℚ) ≤ max (max (max w.detectionRadius w.defenseRadius) w.visualRange) 10 :=
    le_max_right _ _
  linarith

theorem defenseRadius_le_getCellSize (w : World) : w.defenseRadius ≤ getCellSize w := by
  unfold getCellSize
  calc w.defenseRadius ≤ max w.detectionRadius w.defenseRadius := le_max_right _ _
    _ ≤ max (max w.detectionRadius w.defenseRadius) w.visualRange := le_max_left _ _
    _ ≤ _ := le_max_left _ _

theorem mem_intRange {lo hi k : ℤ} : k ∈ intRange lo hi ↔ lo ≤ k ∧ k ≤ hi := by
  unfold intRange
  simp only [List.mem_map, List.mem_range]
  constructor
  · rintro ⟨n, hn, rfl⟩
    omega
  · rintro ⟨h1, h2⟩
    exact ⟨(k - lo).toNat, by omega, by omega⟩

theorem nodup_intRange (lo hi : ℤ) : (intRange lo hi).Nodup := by
  unfold intRange
  exact (List.nodup_range _).map (fun a b h => by omega)

theorem mem_rebuildGrid {cs : ℚ} {actors : List ActorState} {a : ActorState} {k : ℤ × ℤ} :
    a ∈ rebuildGrid cs actors k ↔ cellKey cs a.posX a.posY = k ∧ a ∈ actors := by
  induction actors with
  | nil => simp [rebuildGrid]
  | cons b rest ih =>
    show a ∈ gridInsert (cellKey cs b.posX b.posY) b (rebuildGrid cs rest) k ↔ _
    unfold gridInsert
    by_cases hk : k = cellKey cs b.posX b.posY
    · rw [if_pos hk]
      simp only [List.mem_cons, ih]
      constructor
      · rintro (rfl | ⟨h1, h2⟩)
        · exact ⟨hk.symm, Or.inl rfl⟩
        · exact ⟨h1, Or.inr h2⟩
      · rintro ⟨h1, (rfl | h2)⟩
        · exact Or.inl rfl
        · exact Or.inr ⟨h1, h2⟩
    · rw [if_neg hk]
      rw [ih]
      simp only [List.mem_cons]
      constructor
      · rintro ⟨h1, h2⟩
        exact ⟨h1, Or.inr h2⟩
      · rintro ⟨h1, (rfl | h2)⟩
        · exact absurd h1.symm hk
        · exact ⟨h1, h2⟩

theorem countP_rebuildGrid (cs : ℚ) (actors : List ActorState) (k : ℤ × ℤ)
    (p : ActorState → Bool) :
    (rebuildGrid cs actors k).countP p
      = actors.countP (fun a => p a && decide (cellKey cs a.posX a.posY = k)) := by
  induction actors with
  | nil => rfl
  | cons b rest ih =>
    show (gridInsert (cellKey cs b.posX b.posY) b (rebuildGrid cs rest) k).countP p = _
    unfold gridInsert
    by_cases hk : k = cellKey cs b.posX b.posY
    · rw [if_pos hk]
      rw [List.countP_cons, List.countP_cons, ih]
      have : decide (cellKey cs b.posX b.posY = k) = true := decide_eq_true hk.symm
      rw [this]
      cases hp : p b <;> simp
    · rw [if_neg hk]
      rw [List.countP_cons, ih]
      have : decide (cellKey cs b.posX b.posY = k) = false :=
        decide_eq_false (fun h => hk h.symm)
      rw [this]
      cases hp : p b <;> simp

theorem countP_and_or_disjoint (l : List ActorState) (q r1 r2 : ActorState → Bool)
    (h : ∀ a, ¬(r1 a = true ∧ r2 a = true)) :
    l.countP (fun a => q a && (r1 a || r2 a))
      = l.countP (fun a => q a && r1 a) + l.countP (fun a => q a && r2 a) := by
  induction l with
  | nil => rfl
  | cons a l ih =>
    simp only [List.countP_cons, ih]
    cases hq : q a <;> cases h1 : r1 a <;> cases h2 : r2 a <;> simp <;> try omega
    exact absurd ⟨h1, h2⟩ (h a)

theorem sum_countP_nodup (xs : List ℤ) (hx : xs.Nodup) (l : List ActorState)
    (q : ActorState → Bool) (f : ActorState → ℤ) :
    (xs.map (fun x => l.countP (fun a => q a && decide (f a = x)))).sum
      = l.countP (fun a => q a && decide (f a ∈ xs)) := by
  induction xs with
  | nil => simp
  | cons x xs ih =>
    rcases List.nodup_cons.mp hx with ⟨hnx, hxs⟩
    rw [List.map_cons, List.sum_cons, ih hxs]
    have hcong : l.countP (fun a => q a && decide (f a ∈ x :: xs))
        = l.countP (fun a => q a && (decide (f a = x) || decide (f a ∈ xs))) := by
      apply List.countP_congr
      intro a _
      simp [List.mem_cons]
    rw [hcong, countP_and_or_disjoint]
    intro a ⟨h1, h2⟩
    exact hnx (of_decide_eq_true h1 ▸ of_decide_eq_true h2)

theorem list_map_congr {α β : Type} {l : List α} {f g : α → β}
    (h : ∀ a ∈ l, f a = g a) : l.map f = l.map g := by
  induction l with
  | nil => rfl
  | cons a l ih =>
    rw [List.map_cons, List.map_cons, h a (List.mem_cons_self a l),
      ih (fun b hb => h b (List.mem_cons_of_mem a hb))]

/-- countFriendsInRadius is exact: with a non-negative radius, the
cell-block scan over the rebuilt grid counts precisely the actors of the
target color, other than the excluded id, strictly within the radius. -/
theorem countFriendsInRadius_eq (w : World) (x y radius : ℚ)
    (tc : TeamColor) (ex : String) (hr : 0 ≤ radius) :
    countFriendsInRadius w x y radius tc ex
      = w.actors.countP (fun a =>
          decide (a.color = tc) && decide (¬ a.id = ex) &&
          decide ((a.posX - x) * (a.posX - x) + (a.posY - y) * (a.posY - y)
            < radius * radius)) := by
  have hcs : 0 < getCellSize w := getCellSize_pos w
  unfold countFriendsInRadius
  dsimp only
  set cs := getCellSize w with hcsdef
  set p : ActorState → Bool := fun a =>
    decide (a.color = tc) && decide (¬ a.id = ex) &&
    decide ((a.posX - x) * (a.posX - x) + (a.posY - y) * (a.posY - y)
      < radius * radius) with hpdef
  set minGx := truncQ ((x - radius) / cs) with hminGx
  set maxGx := truncQ ((x + radius) / cs) with hmaxGx
  set minGy := truncQ ((y - radius) / cs) with hminGy
  set maxGy := truncQ ((y + radius) / cs) with hmaxGy
  have hinner : ∀ gx : ℤ,
      ((intRange minGy maxGy).map fun gy => (worldGrid w (gx, gy)).countP p).sum
        = w.actors.countP fun a =>
            (p a && decide ((cellKey cs a.posX a.posY).1 = gx))
              && decide ((cellKey cs a.posX a.posY).2 ∈ intRange minGy maxGy) := by
    intro gx
    have h1 : ((intRange minGy maxGy).map fun gy => (worldGrid w (gx, gy)).countP p)
        = ((intRange minGy maxGy).map fun gy => w.actors.countP fun a =>
            (p a && decide ((cellKey cs a.posX a.posY).1 = gx))
              && decide ((cellKey cs a.posX a.posY).2 = gy)) := by
      apply list_map_congr
      intro gy _
      rw [show worldGrid w = rebuildGrid cs w.actors from rfl, countP_rebuildGrid]
      apply List.countP_congr
      intro a _
      have hsplit : cellKey cs a.posX a.posY = (gx, gy)
          ↔ (cellKey cs a.posX a.posY).1 = gx ∧ (cellKey cs a.posX a.posY).2 = gy :=
        Prod.ext_iff
      simp only [Bool.and_eq_true, decide_eq_true_eq, hsplit]
      tauto
    rw [h1]
    exact sum_countP_nodup (intRange minGy maxGy) (nodup_intRange _ _) w.actors
      (fun a => p a && decide ((cellKey cs a.posX a.posY).1 = gx))
      (fun a => (cellKey cs a.posX a.posY).2)
  have houter : ((intRange minGx maxGx).map fun gx =>
      ((intRange minGy maxGy).map fun gy => (worldGrid w (gx, gy)).countP p).sum).sum
        = w.actors.countP fun a =>
            (p a && decide ((cellKey cs a.posX a.posY).2 ∈ intRange minGy maxGy))
              && decide ((cellKey cs a.posX a.posY).1 ∈ intRange minGx maxGx) := by
    have h2 : ((intRange minGx maxGx).map fun gx =>
        ((intRange minGy maxGy).map fun gy => (worldGrid w (gx, gy)).countP p).sum)
          = ((intRange minGx maxGx).map fun gx => w.actors.countP fun a =>
              (p a && decide ((cellKey cs a.posX a.posY).2 ∈ intRange minGy maxGy))
                && decide ((cellKey cs a.posX a.posY).1 = gx)) := by
      apply list_map_congr
      intro gx _
      rw [hinner gx]
      apply List.countP_congr
      intro a _
      simp only [Bool.and_eq_true]
      tauto
    rw [h2]
    exact sum_countP_nodup (intRange minGx maxGx) (nodup_intRange _ _) w.actors
      (fun a => p a && decide ((cellKey cs a.posX a.posY).2 ∈ intRange minGy maxGy))
      (fun a => (cellKey cs a.posX a.posY).1)
  rw [houter]
  apply List.countP_congr
  intro a _
  cases hp : p a
  · simp [hp]
  · have hdist : (a.posX - x) * (a.posX - x) + (a.posY - y) * (a.posY - y)
        < radius * radius := by
      have := hp
      rw [hpdef] at this
      simp only [Bool.and_eq_true, decide_eq_true_eq] at this
      exact this.2
    have hx1 : x - radius ≤ a.posX := by nlinarith [mul_self_nonneg (a.posY - y)]
    have hx2 : a.posX ≤ x + radius := by nlinarith [mul_self_nonneg (a.posY - y)]
    have hy1 : y - radius ≤ a.posY := by nlinarith [mul_self_nonneg (a.posX - x)]
    have hy2 : a.posY ≤ y + radius := by nlinarith [mul_self_nonneg (a.posX - x)]
    have hgx : (cellKey cs a.posX a.posY).1 ∈ intRange minGx maxGx := by
      rw [mem_intRange]
      constructor
      · exact truncQ_mono ((div_le_div_iff_of_pos_right hcs).mpr hx1)
      · exact truncQ_mono ((div_le_div_iff_of_pos_right hcs).mpr hx2)
    have hgy : (cellKey cs a.posX a.posY).2 ∈ intRange minGy maxGy := by
      rw [mem_intRange]
      constructor
      · exact truncQ_mono ((div_le_div_iff_of_pos_right hcs).mpr hy1)
      · exact truncQ_mono ((div_le_div_iff_of_pos_right hcs).mpr hy2)
    simp [hgx, hgy]

theorem truncQ_div_within {cs c v : ℚ} (hcs : 0 < cs) (h1 : c - cs ≤ v) (h2 : v ≤ c + cs) :
    truncQ (c / cs) - 1 ≤ truncQ (v / cs) ∧ truncQ (v / cs) ≤ truncQ (c / cs) + 1 := by
  have hne : cs ≠ 0 := ne_of_gt hcs
  have ha : (c - cs) / cs = c / cs - 1 := by rw [sub_div, div_self hne]
  have hb : (c + cs) / cs = c / cs + 1 := by rw [add_div, div_self hne]
  constructor
  · calc truncQ (c / cs) - 1 ≤ truncQ (c / cs - 1) := truncQ_sub_one_ge _
      _ = truncQ ((c - cs) / cs) := by rw [ha]
      _ ≤ truncQ (v / cs) := truncQ_mono ((div_le_div_iff_of_pos_right hcs).mpr h1)
  · calc truncQ (v / cs) ≤ truncQ ((c + cs) / cs) :=
        truncQ_mono ((div_le_div_iff_of_pos_right hcs).mpr h2)
      _ = truncQ (c / cs + 1) := by rw [hb]
      _ ≤ truncQ (c / cs) + 1 := truncQ_add_one_le _

theorem mem_getNearbyActors {w : World} {x y : ℚ} {e : ActorState} :
    e ∈ getNearbyActors w x y
      ↔ e ∈ w.actors
        ∧ truncQ (x / getCellSize w) - 1 ≤ truncQ (e.posX / getCellSize w)
        ∧ truncQ (e.posX / getCellSize w) ≤ truncQ (x / getCellSize w) + 1
        ∧ truncQ (y / getCellSize w) - 1 ≤ truncQ (e.posY / getCellSize w)
        ∧ truncQ (e.posY / getCellSize w) ≤ truncQ (y / getCellSize w) + 1 := by
  unfold getNearbyActors
  dsimp only
  simp only [List.mem_flatMap, mem_intRange]
  constructor
  · rintro ⟨i, ⟨hi1, hi2⟩, j, ⟨hj1, hj2⟩, hm⟩
    have hm2 : e ∈ rebuildGrid (getCellSize w) w.actors (i, j) := hm
    rcases mem_rebuildGrid.mp hm2 with ⟨hck, he⟩
    have h1 : truncQ (e.posX / getCellSize w) = i := congrArg Prod.fst hck
    have h2 : truncQ (e.posY / getCellSize w) = j := congrArg Prod.snd hck
    exact ⟨he, by omega, by omega, by omega, by omega⟩
  · rintro ⟨he, hx1, hx2, hy1, hy2⟩
    refine ⟨truncQ (e.posX / getCellSize w), ⟨by omega, by omega⟩,
      truncQ (e.posY / getCellSize w), ⟨by omega, by omega⟩, ?_⟩
    exact mem_rebuildGrid.mpr ⟨rfl, he⟩

/-- Core superset fact behind the 3x3 neighborhood scan: any actor whose
squared distance to the query point is at most `r * r`, for some radius
`0 ≤ r ≤ cellSize`, is in the 3x3 block of cells around the point. -/
theorem nearby_superset_aux (w : World) (x y r : ℚ) (e : ActorState)
    (hr0 : 0 ≤ r) (hrcs : r ≤ getCellSize w) (he : e ∈ w.actors)
    (hclose : (e.posX - x) * (e.posX - x) + (e.posY - y) * (e.posY - y) ≤ r * r) :
    e ∈ getNearbyActors w x y := by
  have hcs : 0 < getCellSize w := getCellSize_pos w
  have hx1 : x - r ≤ e.posX := by nlinarith [mul_self_nonneg (e.posY - y)]
  have hx2 : e.posX ≤ x + r := by nlinarith [mul_self_nonneg (e.posY - y)]
  have hy1 : y - r ≤ e.posY := by nlinarith [mul_self_nonneg (e.posX - x)]
  have hy2 : e.posY ≤ y + r := by nlinarith [mul_self_nonneg (e.posX - x)]
  have hxw := truncQ_div_within hcs (by linarith : x - getCellSize w ≤ e.posX)
    (by linarith : e.posX ≤ x + getCellSize w)
  have hyw := truncQ_div_within hcs (by linarith : y - getCellSize w ≤ e.posY)
    (by linarith : e.posY ≤ y + getCellSize w)
  exact mem_getNearbyActors.mpr ⟨he, hxw.1, hxw.2, hyw.1, hyw.2⟩

/-- C4 counterexample: an actor at (-5, -5) with cell size 10 is binned
into cell (0, 0) by the Go `int` truncation, not into the floor cell
(-1, -1) the claim prescribes; the floor bucket is empty. -/
theorem rebuildGrid_floor_counterexample :
    exActorNeg ∈ exWorldTrunc.actors
    ∧ getCellSize exWorldTrunc = 10
    ∧ (⌊exActorNeg.posX / getCellSize exWorldTrunc⌋,
        ⌊exActorNeg.posY / getCellSize exWorldTrunc⌋) = ((-1 : ℤ), (-1 : ℤ))
    ∧ exActorNeg ∉ worldGrid exWorldTrunc (-1, -1)
    ∧ exActorNeg ∈ worldGrid exWorldTrunc (0, 0) := by
  have hcs : getCellSize exWorldTrunc = 10 := by
    norm_num [getCellSize, exWorldTrunc]
  have hfl : (⌊(-5 : ℚ) / 10⌋ : ℤ) = -1 := by norm_num
  have htr : truncQ (exActorNeg.posX / 10) = 0 := by
    show truncQ ((-5 : ℚ) / 10) = 0
    unfold truncQ
    norm_num
  have htr2 : truncQ (exActorNeg.posY / 10) = 0 := htr
  have hck : cellKey 10 exActorNeg.posX exActorNeg.posY = (0, 0) := by
    unfold cellKey
    rw [htr, htr2]
  have hwg : worldGrid exWorldTrunc = rebuildGrid 10 [exActorNeg] := by
    unfold worldGrid
    rw [hcs]
    rfl
  refine ⟨List.mem_cons_self _ _, hcs, ?_, ?_, ?_⟩
  · rw [hcs]
    show (⌊(-5 : ℚ) / 10⌋, ⌊(-5 : ℚ) / 10⌋) = ((-1 : ℤ), (-1 : ℤ))
    rw [hfl]
  · rw [hwg]
    intro hmem
    have hk := (mem_rebuildGrid.mp hmem).1
    rw [hck] at hk
    exact absurd hk (by decide)
  · rw [hwg]
    exact mem_rebuildGrid.mpr ⟨hck, List.mem_cons_self _ _⟩

/-- C4 (amended): grid rebuild bins every entity into the cell obtained
by dividing its coordinates by the cell size and truncating toward zero
(the Go `int` conversion): an actor is in a bucket exactly when the
bucket key is `(int(x/cell), int(y/cell))`; this equals the floor cell
for non-negative coordinates, while coordinates in (-cell, 0) land in
index 0 and coordinates at or below -cell land in negative indices. -/
theorem rebuildGrid_bins_by_truncation (w : World) (a : ActorState) (k : ℤ × ℤ) :
    a ∈ worldGrid w k
      ↔ a ∈ w.actors
        ∧ k = (truncQ (a.posX / getCellSize w), truncQ (a.posY / getCellSize w)) := by
  have h : a ∈ rebuildGrid (getCellSize w) w.actors k
      ↔ cellKey (getCellSize w) a.posX a.posY = k ∧ a ∈ w.actors := mem_rebuildGrid
  unfold worldGrid
  rw [h]
  unfold cellKey
  constructor
  · rintro ⟨h1, h2⟩
    exact ⟨h2, h1.symm⟩
  · rintro ⟨h1, h2⟩
    exact ⟨h2.symm, h1⟩

/-- C5: spatial-index superset guarantee: after the rebuild, the 3x3
block around a query point contains every entity of the world whose
Euclidean distance to the point is at most r, for any radius r with
0 ≤ r ≤ cellSize (stated with squared distances, which is equivalent
for non-negative r). -/
theorem nearby3x3_superset (w : World) (x y r : ℚ) (e : ActorState)
    (hr0 : 0 ≤ r) (hrcs : r ≤ getCellSize w) (he : e ∈ w.actors)
    (hclose : (e.posX - x) * (e.posX - x) + (e.posY - y) * (e.posY - y) ≤ r * r) :
    e ∈ getNearbyActors w x y :=
  nearby_superset_aux w x y r e hr0 hrcs he hclose

/-- Witness for C5 at a concrete world: the actor at (-5, -5) is within
distance 6 of the query point (-1, -1) and cell size is 10. -/
theorem nearby3x3_superset_witness :
    (0 : ℚ) ≤ 6 ∧ (6 : ℚ) ≤ getCellSize exWorldTrunc
    ∧ exActorNeg ∈ exWorldTrunc.actors
    ∧ (exActorNeg.posX - (-1)) * (exActorNeg.posX - (-1))
        + (exActorNeg.posY - (-1)) * (exActorNeg.posY - (-1)) ≤ (6 : ℚ) * 6
    ∧ exActorNeg ∈ getNearbyActors exWorldTrunc (-1) (-1) :=
  ⟨by norm_num, by norm_num [getCellSize, exWorldTrunc], by simp [exWorldTrunc],
    by norm_num [exActorNeg],
    nearby3x3_superset exWorldTrunc (-1) (-1) 6 exActorNeg
      (by norm_num) (by norm_num [getCellSize, exWorldTrunc]) (by simp [exWorldTrunc])
      (by norm_num [exActorNeg])⟩

/-- C1: combat resolution: whenever a RED attacker is strictly within
the contact radius of a BLUE victim during the per-tick neighborhood
scan, the scan emits exactly the message resolveCombat produces, the
defender count equals the number of BLUE actors other than the victim
strictly within the defense radius of it, and the message is
Convert(BLUE) to the attacker when that count is at least 3 and
Convert(RED) to the victim otherwise.  The hypotheses on the radii are
the validated configuration invariants (0 ≤ contact ≤ defense). -/
theorem combat_resolution (w : World) (attacker victim : ActorState)
    (hc0 : 0 ≤ w.cfg.contactRadius)
    (hcd : w.cfg.contactRadius ≤ w.defenseRadius)
    (ha : attacker.color = TeamColor.red)
    (hv : victim.color = TeamColor.blue)
    (hvm : victim ∈ w.actors)
    (hid : ¬ victim.id = attacker.id)
    (hcontact : distSquared attacker victim
      < w.cfg.contactRadius * w.cfg.contactRadius) :
    resolveCombat w attacker victim ∈ scanCombat w attacker
    ∧ countFriendsInRadius w victim.posX victim.posY w.defenseRadius
        TeamColor.blue victim.id
      = w.actors.countP (fun a =>
          decide (a.color = TeamColor.blue) && decide (¬ a.id = victim.id) &&
          decide (distSquared a victim < w.defenseRadius * w.defenseRadius))
    ∧ (3 ≤ w.actors.countP (fun a =>
          decide (a.color = TeamColor.blue) && decide (¬ a.id = victim.id) &&
          decide (distSquared a victim < w.defenseRadius * w.defenseRadius))
        → resolveCombat w attacker victim = ⟨attacker.id, TeamColor.blue⟩)
    ∧ (w.actors.countP (fun a =>
          decide (a.color = TeamColor.blue) && decide (¬ a.id = victim.id) &&
          decide (distSquared a victim < w.defenseRadius * w.defenseRadius)) < 3
        → resolveCombat w attacker victim = ⟨victim.id, TeamColor.red⟩) := by
  have hdr : 0 ≤ w.defenseRadius := le_trans hc0 hcd
  have hcount2 : countFriendsInRadius w victim.posX victim.posY w.defenseRadius
      TeamColor.blue victim.id
      = w.actors.countP (fun a =>
          decide (a.color = TeamColor.blue) && decide (¬ a.id = victim.id) &&
          decide (distSquared a victim < w.defenseRadius * w.defenseRadius)) := by
    rw [countFriendsInRadius_eq w victim.posX victim.posY w.defenseRadius
      TeamColor.blue victim.id hdr]
    apply List.countP_congr
    intro a _
    rw [show distSquared a victim
      = (a.posX - victim.posX) * (a.posX - victim.posX)
        + (a.posY - victim.posY) * (a.posY - victim.posY) from rfl]
  have hclose : (victim.posX - attacker.posX) * (victim.posX - attacker.posX)
      + (victim.posY - attacker.posY) * (victim.posY - attacker.posY)
      ≤ w.cfg.contactRadius * w.cfg.contactRadius := by
    have he : (victim.posX - attacker.posX) * (victim.posX - attacker.posX)
        + (victim.posY - attacker.posY) * (victim.posY - attacker.posY)
        = distSquared attacker victim := by
      unfold distSquared
      ring
    rw [he]
    exact le_of_lt hcontact
  have hcsle : w.cfg.contactRadius ≤ getCellSize w :=
    le_trans hcd (defenseRadius_le_getCellSize w)
  have hnear : victim ∈ getNearbyActors w attacker.posX attacker.posY :=
    nearby_superset_aux w attacker.posX attacker.posY w.cfg.contactRadius victim
      hc0 hcsle hvm hclose
  have hmem : resolveCombat w attacker victim ∈ scanCombat w attacker := by
    unfold scanCombat
    rw [List.mem_flatMap]
    refine ⟨victim, hnear, ?_⟩
    rw [if_pos ⟨hid, ha, hv, hcontact⟩]
    exact List.mem_singleton_self _
  refine ⟨hmem, hcount2, ?_, ?_⟩
  · intro h3
    unfold resolveCombat
    dsimp only
    rw [hcount2, if_pos h3]
  · intro hlt
    unfold resolveCombat
    dsimp only
    rw [hcount2, if_neg (by omega)]

/-- Witness for C1 at a concrete world with one RED attacker next to a
BLUE victim guarded by exactly 3 defenders: the scan converts the
attacker to BLUE. -/
theorem combat_resolution_witness :
    resolveCombat exWorldCombat attackerEx victimEx
      ∈ scanCombat exWorldCombat attackerEx
    ∧ resolveCombat exWorldCombat attackerEx victimEx
      = ⟨"R0", TeamColor.blue⟩ := by
  have h := combat_resolution exWorldCombat attackerEx victimEx
    (by norm_num [exWorldCombat, combatCfg, defaultConfig])
    (by norm_num [exWorldCombat, combatCfg, defaultConfig])
    rfl rfl
    (by simp [exWorldCombat, defendersEx])
    (by decide)
    (by norm_num [distSquared, attackerEx, victimEx, exWorldCombat, combatCfg,
      defaultConfig])
  have hc3 : 3 ≤ exWorldCombat.actors.countP (fun a =>
      decide (a.color = TeamColor.blue) && decide (¬ a.id = victimEx.id) &&
      decide (distSquared a victimEx
        < exWorldCombat.defenseRadius * exWorldCombat.defenseRadius)) := by
    norm_num [exWorldCombat, attackerEx, victimEx, defendersEx, distSquared,
      List.countP_cons, List.countP_nil]
    decide
  exact ⟨h.1, h.2.2.1 hc3⟩

theorem teamColor_not_red_iff (c : TeamColor) : (¬ c = TeamColor.red) ↔ c = TeamColor.blue := by
  cases c <;> simp

theorem list_countP_add_not (l : List ActorState) (p : ActorState → Bool) :
    l.countP p + l.countP (fun a => ! p a) = l.length := by
  induction l with
  | nil => rfl
  | cons a l ih =>
    simp only [List.countP_cons, List.length_cons]
    cases hp : p a <;> simp [hp] <;> omega

theorem list_flatMap_eq_nil {α β : Type} {l : List α} {f : α → List β}
    (h : ∀ a ∈ l, f a = []) : l.flatMap f = [] := by
  induction l with
  | nil => rfl
  | cons a l ih =>
    rw [List.flatMap_cons, h a (List.mem_cons_self a l),
      ih (fun b hb => h b (List.mem_cons_of_mem a hb))]
    rfl

theorem buildSnapshot_redCount (l : List ActorState) :
    (buildSnapshot l).redCount = l.countP (fun a => decide (a.color = TeamColor.red)) := by
  unfold buildSnapshot
  dsimp only
  split_ifs <;> rfl

theorem buildSnapshot_blueCount (l : List ActorState) :
    (buildSnapshot l).blueCount = l.countP (fun a => ! decide (a.color = TeamColor.red)) := by
  unfold buildSnapshot
  dsimp only
  split_ifs <;> rfl

theorem buildSnapshot_isGameOver_iff (l : List ActorState) :
    (buildSnapshot l).isGameOver = true
      ↔ 0 < l.length
        ∧ ((buildSnapshot l).redCount = 0 ∨ (buildSnapshot l).blueCount = 0) := by
  have hsum := list_countP_add_not l (fun a => decide (a.color = TeamColor.red))
  rw [buildSnapshot_redCount, buildSnapshot_blueCount]
  unfold buildSnapshot
  dsimp only
  set r := l.countP (fun a => decide (a.color = TeamColor.red)) with hr
  set b := l.countP (fun a => ! decide (a.color = TeamColor.red)) with hb
  split_ifs with h1 h2 h3
  · constructor
    · intro _
      exact ⟨by omega, Or.inl h2⟩
    · intro _
      rfl
  · constructor
    · intro _
      exact ⟨by omega, Or.inr h3⟩
    · intro _
      rfl
  · constructor
    · intro hfalse
      exact hfalse.elim
    · rintro ⟨hl, hor | hor⟩
      · exact absurd hor h2
      · exact absurd hor h3
  · constructor
    · intro hfalse
      exact hfalse.elim
    · rintro ⟨hl, _⟩
      exact absurd (by omega : 0 < r + b) h1

theorem buildSnapshot_winner_red_zero (l : List ActorState) (h0 : 0 < l.length)
    (hred : l.countP (fun a => decide (a.color = TeamColor.red)) = 0) :
    (buildSnapshot l).winner = some TeamColor.blue := by
  have hsum := list_countP_add_not l (fun a => decide (a.color = TeamColor.red))
  unfold buildSnapshot
  dsimp only
  rw [if_pos (by omega), if_pos hred]

theorem buildSnapshot_winner_blue_zero (l : List ActorState) (h0 : 0 < l.length)
    (hred : ¬ l.countP (fun a => decide (a.color = TeamColor.red)) = 0)
    (hblue : l.countP (fun a => ! decide (a.color = TeamColor.red)) = 0) :
    (buildSnapshot l).winner = some TeamColor.red := by
  have hsum := list_countP_add_not l (fun a => decide (a.color = TeamColor.red))
  unfold buildSnapshot
  dsimp only
  rw [if_pos (by omega), if_neg hred, if_pos hblue]

theorem scanCombat_nil_of_not_red (w : World) (me : ActorState)
    (h : ¬ me.color = TeamColor.red) : scanCombat w me = [] := by
  unfold scanCombat
  apply list_flatMap_eq_nil
  intro other _
  rw [if_neg]
  rintro ⟨_, hcol, _⟩
  exact h hcol

theorem scanCombat_nil_of_no_blue (w : World) (me : ActorState)
    (h : ∀ a ∈ w.actors, ¬ a.color = TeamColor.blue) : scanCombat w me = [] := by
  unfold scanCombat
  apply list_flatMap_eq_nil
  intro other hother
  rw [if_neg]
  rintro ⟨_, _, hb, _⟩
  exact h other (mem_getNearbyActors.mp hother).1 hb

theorem allCombatMessages_nil_of_no_red (w : World)
    (h : ∀ a ∈ w.actors, ¬ a.color = TeamColor.red) : allCombatMessages w = [] := by
  unfold allCombatMessages
  exact list_flatMap_eq_nil (fun a ha => scanCombat_nil_of_not_red w a (h a ha))

theorem allCombatMessages_nil_of_no_blue (w : World)
    (h : ∀ a ∈ w.actors, ¬ a.color = TeamColor.blue) : allCombatMessages w = [] := by
  unfold allCombatMessages
  exact list_flatMap_eq_nil (fun a _ => scanCombat_nil_of_no_blue w a h)

theorem worldTick_of_no_messages (w : World) (f : ActorState → ActorState)
    (h : allCombatMessages w = []) : worldTick w f = w.actors.map f := by
  unfold worldTick
  rw [h]
  simp [applyConverts]

/-- C2 counterexample: when the actors map is empty (both start counts
zero spawn nothing), the published snapshot has red_count = 0 and
blue_count = 0 yet is_game_over is false, because buildSnapshot only
sets the flag when the total population is positive. -/
theorem gameOver_iff_counterexample :
    wEmptyPop.actors = []
    ∧ (buildSnapshot wEmptyPop.actors).redCount = 0
    ∧ (buildSnapshot wEmptyPop.actors).blueCount = 0
    ∧ (buildSnapshot wEmptyPop.actors).isGameOver = false := by
  refine ⟨rfl, ?_, ?_, ?_⟩ <;> rfl

/-- C2 (amended): for every snapshot the World builds, is_game_over is
true exactly when the population is positive and one of the counts is
zero; and in the synchronous tick model (agents process this tick's
Convert messages and a physics step that never changes id or color, and
the World ingests the reports), once a snapshot is game-over the next
tick's snapshot is game-over with the same winner. -/
theorem gameOver_iff_and_latching :
    (∀ actors : List ActorState,
      (buildSnapshot actors).isGameOver = true
        ↔ 0 < actors.length
          ∧ ((buildSnapshot actors).redCount = 0 ∨ (buildSnapshot actors).blueCount = 0))
    ∧ (∀ (w : World) (f : ActorState → ActorState),
        (∀ a, (f a).color = a.color) →
        (buildSnapshot w.actors).isGameOver = true →
        (buildSnapshot (worldTick w f)).isGameOver = true
          ∧ (buildSnapshot (worldTick w f)).winner = (buildSnapshot w.actors).winner) := by
  constructor
  · exact buildSnapshot_isGameOver_iff
  · intro w f hf hgo
    rcases (buildSnapshot_isGameOver_iff w.actors).mp hgo with ⟨h0, hor⟩
    rw [buildSnapshot_redCount, buildSnapshot_blueCount] at hor
    by_cases hred : w.actors.countP (fun a => decide (a.color = TeamColor.red)) = 0
    · -- no RED actor: no combat messages, colors unchanged, winner stays BLUE
      have hnored : ∀ a ∈ w.actors, ¬ a.color = TeamColor.red := by
        have := List.countP_eq_zero.mp hred
        intro a ha
        simpa using this a ha
      have hmsgs : allCombatMessages w = [] := allCombatMessages_nil_of_no_red w hnored
      have htick : worldTick w f = w.actors.map f := worldTick_of_no_messages w f hmsgs
      have hlen : (worldTick w f).length = w.actors.length := by
        rw [htick, List.length_map]
      have hredT : (worldTick w f).countP (fun a => decide (a.color = TeamColor.red))
          = w.actors.countP (fun a => decide (a.color = TeamColor.red)) := by
        rw [htick, List.countP_map]
        apply List.countP_congr
        intro a _
        simp [Function.comp, hf a]
      constructor
      · rw [buildSnapshot_isGameOver_iff]
        refine ⟨by omega, Or.inl ?_⟩
        rw [buildSnapshot_redCount, hredT]
        exact hred
      · rw [buildSnapshot_winner_red_zero w.actors h0 hred,
          buildSnapshot_winner_red_zero (worldTick w f) (by omega) (by rw [hredT]; exact hred)]
    · -- RED survives, so the BLUE count must be zero: winner stays RED
      have hblue : w.actors.countP (fun a => ! decide (a.color = TeamColor.red)) = 0 := by
        rcases hor with h | h
        · exact absurd h hred
        · exact h
      have hnoblue : ∀ a ∈ w.actors, ¬ a.color = TeamColor.blue := by
        have := List.countP_eq_zero.mp hblue
        intro a ha hb
        have h2 := this a ha
        simp only [Bool.not_eq_true', decide_eq_false_iff_not] at h2
        rw [hb] at h2
        simp at h2
      have hmsgs : allCombatMessages w = [] := allCombatMessages_nil_of_no_blue w hnoblue
      have htick : worldTick w f = w.actors.map f := worldTick_of_no_messages w f hmsgs
      have hlen : (worldTick w f).length = w.actors.length := by
        rw [htick, List.length_map]
      have hredT : (worldTick w f).countP (fun a => decide (a.color = TeamColor.red))
          = w.actors.countP (fun a => decide (a.color = TeamColor.red)) := by
        rw [htick, List.countP_map]
        apply List.countP_congr
        intro a _
        simp [Function.comp, hf a]
      have hblueT : (worldTick w f).countP (fun a => ! decide (a.color = TeamColor.red))
          = w.actors.countP (fun a => ! decide (a.color = TeamColor.red)) := by
        rw [htick, List.countP_map]
        apply List.countP_congr
        intro a _
        simp [Function.comp, hf a]
      constructor
      · rw [buildSnapshot_isGameOver_iff]
        refine ⟨by omega, Or.inr ?_⟩
        rw [buildSnapshot_blueCount, hblueT]
        exact hblue
      · rw [buildSnapshot_winner_blue_zero w.actors h0 hred hblue,
          buildSnapshot_winner_blue_zero (worldTick w f) (by omega)
            (by rw [hredT]; exact hred) (by rw [hblueT]; exact hblue)]

/-- Witness for the latching half of C2 at a world with a single RED
actor: the snapshot is game-over with winner RED, and it stays so after
a tick with an identity physics step. -/
theorem gameOver_latching_witness :
    (buildSnapshot wOneRed.actors).isGameOver = true
    ∧ (buildSnapshot (worldTick wOneRed (fun a => a))).isGameOver = true
    ∧ (buildSnapshot (worldTick wOneRed (fun a => a))).winner
        = (buildSnapshot wOneRed.actors).winner := by
  have hgo : (buildSnapshot wOneRed.actors).isGameOver = true := by rfl
  have h := gameOver_iff_and_latching.2 wOneRed (fun a => a) (fun a => rfl) hgo
  exact ⟨hgo, h.1, h.2⟩

/-- C3 counterexample: an UpdateConfig whose speeds violate the
invariant (minSpeed 5, maxSpeed 4) is installed: after processing, the
held configuration carries the invalid values and differs from the
previous configuration, and re-validating it reports the violation. -/
theorem updateConfig_rejection_counterexample :
    msgBad.maxSpeed ≤ msgBad.minSpeed
    ∧ (handleUpdateConfig wCfg msgBad).cfg.minSpeed = 5
    ∧ (handleUpdateConfig wCfg msgBad).cfg.maxSpeed = 4
    ∧ ¬ (handleUpdateConfig wCfg msgBad).cfg = wCfg.cfg
    ∧ Config.validate (handleUpdateConfig wCfg msgBad).cfg
        = Except.error "minSpeed must be < maxSpeed" := by
  refine ⟨by norm_num [msgBad], rfl, rfl, ?_, ?_⟩
  · intro h
    have := congrArg Config.minSpeed h
    norm_num [handleUpdateConfig, msgBad, wCfg, defaultConfig] at this
  · show Config.validate { defaultConfig with
      detectionRadius := 50, defenseRadius := 40, contactRadius := 12,
      visualRange := 70, protectedRange := 20, maxSpeed := 4, minSpeed := 5,
      aggression := 8/10, centeringFactor := 5/10000, avoidFactor := 5/100,
      matchingFactor := 5/100, turnFactor := 2/10,
      displayDetectionCircle := false, displayDefenseCircle := false,
      numRedAtStart := 5, numBlueAtStart := 30 } = _
    unfold Config.validate
    norm_num

/-- C3 (amended): the World never re-validates an UpdateConfig: even
when the message fields violate the configuration invariants, all
live-tunable fields are replaced by the message values (the previous
configuration is not preserved); only the actors map is untouched. -/
theorem updateConfig_applied_unconditionally (w : World) (msg : UpdateConfig)
    (hbad : msg.maxSpeed ≤ msg.minSpeed ∨ msg.defenseRadius < msg.contactRadius
      ∨ msg.detectionRadius < msg.defenseRadius) :
    (handleUpdateConfig w msg).cfg.minSpeed = msg.minSpeed
    ∧ (handleUpdateConfig w msg).cfg.maxSpeed = msg.maxSpeed
    ∧ (handleUpdateConfig w msg).cfg.contactRadius = msg.contactRadius
    ∧ (handleUpdateConfig w msg).cfg.defenseRadius = msg.defenseRadius
    ∧ (handleUpdateConfig w msg).cfg.detectionRadius = msg.detectionRadius
    ∧ (handleUpdateConfig w msg).detectionRadius = msg.detectionRadius
    ∧ (handleUpdateConfig w msg).defenseRadius = msg.defenseRadius
    ∧ (handleUpdateConfig w msg).visualRange = msg.visualRange
    ∧ (handleUpdateConfig w msg).actors = w.actors :=
  ⟨rfl, rfl, rfl, rfl, rfl, rfl, rfl, rfl, rfl⟩

/-- Witness for C3 at the concrete invalid message. -/
theorem updateConfig_applied_witness :
    (msgBad.maxSpeed ≤ msgBad.minSpeed
      ∨ msgBad.defenseRadius < msgBad.contactRadius
      ∨ msgBad.detectionRadius < msgBad.defenseRadius)
    ∧ (handleUpdateConfig wCfg msgBad).cfg.minSpeed = msgBad.minSpeed
    ∧ (handleUpdateConfig wCfg msgBad).actors = wCfg.actors :=
  ⟨Or.inl (by norm_num [msgBad]),
    (updateConfig_applied_unconditionally wCfg msgBad (Or.inl (by norm_num [msgBad]))).1,
    (updateConfig_applied_unconditionally wCfg msgBad (Or.inl (by norm_num [msgBad]))).2.2.2.2.2.2.2.2⟩

/-- C6 counterexample: the BLUE soft-boundary integration does not keep
positions in the arena, even with the validated default configuration
and even after one additional tick of reconciliation: a BLUE agent at
x = -50 with vx = -3 ends tick 1 at x = -52.8 and tick 2 at x = -55.4.
The speed arguments 14/5 and 13/5 are the exact Euclidean speeds after
each tick's soft-boundary step. -/
theorem blue_soft_boundary_counterexample :
    Config.validate defaultConfig = Except.ok ()
    ∧ (0 : ℚ) ≤ 14/5
    ∧ (14/5 : ℚ) * (14/5)
        = (applySoftBoundaries defaultConfig iBlueOut).vx
            * (applySoftBoundaries defaultConfig iBlueOut).vx
          + (applySoftBoundaries defaultConfig iBlueOut).vy
            * (applySoftBoundaries defaultConfig iBlueOut).vy
    ∧ (updateSoftTurnPosition defaultConfig iBlueOut (14/5)).x < 0
    ∧ (0 : ℚ) ≤ 13/5
    ∧ (13/5 : ℚ) * (13/5)
        = (applySoftBoundaries defaultConfig
            (updateSoftTurnPosition defaultConfig iBlueOut (14/5))).vx
            * (applySoftBoundaries defaultConfig
                (updateSoftTurnPosition defaultConfig iBlueOut (14/5))).vx
          + (applySoftBoundaries defaultConfig
              (updateSoftTurnPosition defaultConfig iBlueOut (14/5))).vy
            * (applySoftBoundaries defaultConfig
                (updateSoftTurnPosition defaultConfig iBlueOut (14/5))).vy
    ∧ (updateSoftTurnPosition defaultConfig
        (updateSoftTurnPosition defaultConfig iBlueOut (14/5)) (13/5)).x < 0 := by
  refine ⟨by unfold Config.validate; norm_num [defaultConfig], by norm_num, ?_, ?_, by norm_num, ?_, ?_⟩ <;>
    norm_num [updateSoftTurnPosition, applySoftBoundaries, applySpeedLimits,
      defaultConfig, iBlueOut]

/-- C6 (amended): the position bound holds for the RED hard-bounce
integration: after updateBouncePosition the position lies within
[0, worldWidth] x [0, worldHeight] whenever the arena is non-degenerate;
the BLUE soft-boundary integration carries no such bound (it steers the
velocity only and never clamps the position). -/
theorem bounce_position_in_bounds (cfg : Config) (i : Individual)
    (hw : 0 ≤ cfg.worldWidth) (hh : 0 ≤ cfg.worldHeight) :
    0 ≤ (updateBouncePosition cfg i).x
    ∧ (updateBouncePosition cfg i).x ≤ cfg.worldWidth
    ∧ 0 ≤ (updateBouncePosition cfg i).y
    ∧ (updateBouncePosition cfg i).y ≤ cfg.worldHeight := by
  unfold updateBouncePosition
  dsimp only
  refine ⟨?_, ?_, ?_, ?_⟩ <;> split_ifs <;> linarith

/-- Witness for C6 (amended) at a concrete RED agent crossing the right
wall under the default configuration. -/
theorem bounce_position_in_bounds_witness :
    (0 : ℚ) ≤ defaultConfig.worldWidth
    ∧ (0 : ℚ) ≤ defaultConfig.worldHeight
    ∧ 0 ≤ (updateBouncePosition defaultConfig iRedW).x
    ∧ (updateBouncePosition defaultConfig iRedW).x ≤ defaultConfig.worldWidth
    ∧ 0 ≤ (updateBouncePosition defaultConfig iRedW).y
    ∧ (updateBouncePosition defaultConfig iRedW).y ≤ defaultConfig.worldHeight := by
  have h := bounce_position_in_bounds defaultConfig iRedW
    (by norm_num [defaultConfig]) (by norm_num [defaultConfig])
  exact ⟨by norm_num [defaultConfig], by norm_num [defaultConfig], h.1, h.2.1, h.2.2.1, h.2.2.2⟩

theorem list_foldl_id {α β : Type} (l : List α) (f : β → α → β) (init : β)
    (h : ∀ b, ∀ a ∈ l, f b a = b) : l.foldl f init = init := by
  induction l generalizing init with
  | nil => rfl
  | cons a l ih =>
    rw [List.foldl_cons, h init a (List.mem_cons_self a l)]
    exact ih init (fun b x hx => h b x (List.mem_cons_of_mem a hx))

/-- C7: flocking null-force case: when no friend is strictly within the
protected range and none is strictly within the visual range (in
particular when the friends list is empty), the boids kernel returns
the agent's velocity unchanged (zero steering force). -/
theorem boid_null_force (me : Individual) (friends : List ActorState) (cfg : Config)
    (hfar : ∀ a ∈ friends,
      ¬ ((me.x - a.posX) * (me.x - a.posX) + (me.y - a.posY) * (me.y - a.posY)
          < cfg.protectedRange * cfg.protectedRange)
      ∧ ¬ ((me.x - a.posX) * (me.x - a.posX) + (me.y - a.posY) * (me.y - a.posY)
          < cfg.visualRange * cfg.visualRange)) :
    ComputeBoidUpdate me friends cfg = (me.vx, me.vy) := by
  unfold ComputeBoidUpdate
  have hacc : friends.foldl (boidScanStep cfg me) ⟨0, 0, 0, 0, 0, 0, 0⟩
      = ⟨0, 0, 0, 0, 0, 0, 0⟩ := by
    apply list_foldl_id
    intro b a ha
    unfold boidScanStep
    dsimp only
    rw [if_neg (hfar a ha).1, if_neg (hfar a ha).2]
  rw [hacc]
  norm_num

/-- Witness for C7: a lone far friend (distance 1000 under the default
ranges) produces no steering force. -/
theorem boid_null_force_witness :
    (∀ a ∈ farFriends,
      ¬ ((meBoid.x - a.posX) * (meBoid.x - a.posX)
          + (meBoid.y - a.posY) * (meBoid.y - a.posY)
          < defaultConfig.protectedRange * defaultConfig.protectedRange)
      ∧ ¬ ((meBoid.x - a.posX) * (meBoid.x - a.posX)
          + (meBoid.y - a.posY) * (meBoid.y - a.posY)
          < defaultConfig.visualRange * defaultConfig.visualRange))
    ∧ ComputeBoidUpdate meBoid farFriends defaultConfig = (meBoid.vx, meBoid.vy) := by
  have hfar : ∀ a ∈ farFriends,
      ¬ ((meBoid.x - a.posX) * (meBoid.x - a.posX)
          + (meBoid.y - a.posY) * (meBoid.y - a.posY)
          < defaultConfig.protectedRange * defaultConfig.protectedRange)
      ∧ ¬ ((meBoid.x - a.posX) * (meBoid.x - a.posX)
          + (meBoid.y - a.posY) * (meBoid.y - a.posY)
          < defaultConfig.visualRange * defaultConfig.visualRange) := by
    intro a ha
    rcases List.mem_singleton.mp ha with rfl
    norm_num [meBoid, defaultConfig]
  exact ⟨hfar, boid_null_force meBoid farFriends defaultConfig hfar⟩

/-- C8: conversion round trip: converting a RED agent to BLUE and then
back to RED returns the faction to the original, multiplies each
velocity component by (-1.5)^2 = 2.25, and leaves the perception caches
cleared. -/
theorem conversion_round_trip (i : Individual) (h : i.color = TeamColor.red) :
    (handleConversion (handleConversion i TeamColor.blue) TeamColor.red).color = i.color
    ∧ (handleConversion (handleConversion i TeamColor.blue) TeamColor.red).vx
        = i.vx * (9/4)
    ∧ (handleConversion (handleConversion i TeamColor.blue) TeamColor.red).vy
        = i.vy * (9/4)
    ∧ (handleConversion (handleConversion i TeamColor.blue) TeamColor.red).visibleTargets
        = []
    ∧ (handleConversion (handleConversion i TeamColor.blue) TeamColor.red).visibleFriends
        = [] := by
  have h1 : handleConversion i TeamColor.blue
      = { i with color := TeamColor.blue,
                 vx := i.vx * (-(3/2)), vy := i.vy * (-(3/2)),
                 visibleTargets := [], visibleFriends := [] } := by
    unfold handleConversion
    rw [if_neg (by rw [h]; decide)]
  rw [h1]
  unfold handleConversion
  rw [if_neg (by simp)]
  refine ⟨h.symm, by dsimp only; ring, by dsimp only; ring, rfl, rfl⟩

/-- Witness for C8 at a concrete RED agent with velocity (2, -3). -/
theorem conversion_round_trip_witness :
    iConv.color = TeamColor.red
    ∧ (handleConversion (handleConversion iConv TeamColor.blue) TeamColor.red).color
        = iConv.color
    ∧ (handleConversion (handleConversion iConv TeamColor.blue) TeamColor.red).vx
        = iConv.vx * (9/4) := by
  have h := conversion_round_trip iConv rfl
  exact ⟨rfl, h.1, h.2.1⟩

/-- C9 counterexample: the scalar 1e-10 has magnitude below the package
epsilon 1e-9, yet Div succeeds on it (no error, finite componentwise
quotient): the failure condition is scalar = 0, not magnitude below
epsilon. -/
theorem div_epsilon_counterexample :
    |(1/10000000000 : ℚ)| < Epsilon
    ∧ ¬ (1/10000000000 : ℚ) = 0
    ∧ (Vector2D.div ⟨1, 2⟩ (1/10000000000)).isErr = false
    ∧ (Vector2D.div ⟨1, 2⟩ (1/10000000000)).x = FloatVal.fin 10000000000 := by
  refine ⟨?_, by norm_num, ?_, ?_⟩
  · rw [Epsilon, abs_of_pos (by norm_num)]
    norm_num
  · norm_num [Vector2D.div]
  · norm_num [Vector2D.div]

/-- C9 (amended): Vector2D.Div fails, returning the infinity-valued
vector together with the error, exactly when the scalar equals zero;
for every non-zero scalar (including scalars of magnitude below
epsilon) it returns the componentwise quotient with no error. -/
theorem div_fails_iff_zero (v : Vector2D) (s : ℚ) :
    ((Vector2D.div v s).isErr = true ↔ s = 0)
    ∧ (s = 0 → Vector2D.div v s = ⟨FloatVal.inf, FloatVal.inf, true⟩)
    ∧ (¬ s = 0 → Vector2D.div v s
        = ⟨FloatVal.fin (v.x / s), FloatVal.fin (v.y / s), false⟩) := by
  unfold Vector2D.div
  split_ifs with hs
  · refine ⟨by simp [hs], fun _ => rfl, fun hns => absurd hs hns⟩
  · refine ⟨by simp [hs], fun h => absurd h hs, fun _ => rfl⟩

/-- Witness for C9 (amended) at the non-zero scalar 2. -/
theorem div_fails_iff_zero_witness :
    ¬ (2 : ℚ) = 0
    ∧ Vector2D.div ⟨1, 2⟩ 2
        = ⟨FloatVal.fin ((1 : ℚ)/2), FloatVal.fin ((2 : ℚ)/2), false⟩
    ∧ (Vector2D.div ⟨1, 2⟩ 2).isErr = false := by
  have h := div_fails_iff_zero ⟨1, 2⟩ 2
  refine ⟨by norm_num, h.2.2 (by norm_num), ?_⟩
  rw [h.2.2 (by norm_num)]

/-- C10: handling a Convert message preserves the agent's identity and
position: for every agent state and target color, the id and the (x, y)
position after handleConversion equal their values before. -/
theorem conversion_preserves_id_pos (i : Individual) (c : TeamColor) :
    (handleConversion i c).id = i.id
    ∧ (handleConversion i c).x = i.x
    ∧ (handleConversion i c).y = i.y := by
  unfold handleConversion
  split_ifs <;> exact ⟨rfl, rfl, rfl⟩
